import Mathlib

/-
Verification development for the EDA dashboard Flask application (src/app.py).

The application reads three SQL tables into pandas DataFrames, normalizes
identifier column names, left-joins employees with departments on
department_id, counts rows per department_name (bar chart), left-joins
project assignments with that view on employee_id, fills missing
department names with the literal "Unknown", counts rows per
department_name (pie chart), and serves an HTML page referencing the two
generated images, returning HTTP 500 on any failure.

We shallowly embed the dataframe operations used by the program: a cell is
an optional value (None models SQL NULL and pandas NaN), a row is an
association list from column name to cell, and a DataFrame carries its
column list and its rows.  pandas semantics are followed for the
operations the program uses: merge(on=k, how="left") keeps every left row
in order, emits one row per matching right row (NaN keys match nothing),
pads unmatched rows with NaN in the right columns, keeps the key column
once and suffixes overlapping non-key column names with _x / _y;
value_counts drops NaN, counts occurrences and sorts in descending count
order with ties in first-encountered order; fillna replaces NaN cells of a
column in place.
-/

namespace EDADashboard

/-- A database / dataframe scalar value. -/
inductive Val where
  | vInt (n : Int)
  | vStr (s : String)
deriving DecidableEq, Repr

/-- A cell of a dataframe; none models SQL NULL / pandas NaN. -/
abbrev Cell := Option Val

/-- A dataframe row: an association list from column name to cell. -/
abbrev Row := List (String × Cell)

/-- An in-memory table, as produced by pd.read_sql. -/
structure DataFrame where
  cols : List String
  rows : List Row
deriving DecidableEq, Repr

/-- Reading a cell of a row by column name, as in df[col]; a missing pair
reads as NaN. -/
def lookupCell (r : Row) (c : String) : Cell :=
  match r.find? (fun p => decide (p.1 = c)) with
  | some p => p.2
  | none => none

/-- df.rename(columns=\x7bold: new\x7d, inplace=True). -/
def renameCol (df : DataFrame) (old new : String) : DataFrame :=
  { cols := df.cols.map (fun c => if c = old then new else c),
    rows := df.rows.map (fun r => r.map (fun p => if p.1 = old then (new, p.2) else p)) }

/-- Lines 51-52 of app.py: rename departments.id to department_id, but only
when an id column exists and a department_id column does not. -/
def normalizeDepartments (df : DataFrame) : DataFrame :=
  if "id" ∈ df.cols ∧ "department_id" ∉ df.cols then renameCol df "id" "department_id" else df

/-- Lines 55-56 of app.py: rename employees.id to employee_id, but only
when an id column exists and an employee_id column does not. -/
def normalizeEmployees (df : DataFrame) : DataFrame :=
  if "id" ∈ df.cols ∧ "employee_id" ∉ df.cols then renameCol df "id" "employee_id" else df

/-- pandas suffixing of overlapping non-key column names in a merge: a
column that also appears in the other frame and is not the join key gets
the given suffix. -/
def suffixName (other : List String) (k suf : String) (c : String) : String :=
  if c ≠ k ∧ c ∈ other then c ++ suf else c

/-- Apply merge suffixing to the column names of a row. -/
def suffixRow (other : List String) (k suf : String) (r : Row) : Row :=
  r.map (fun p => (suffixName other k suf p.1, p.2))

/-- Column list of pd.merge(left, right, on=k): left columns (suffixed _x
where overlapping), then the non-key right columns (suffixed _y where
overlapping); the key column appears once, from the left frame. -/
def mergeCols (left right : List String) (k : String) : List String :=
  left.map (suffixName right k "_x") ++
    (right.filter (fun c => decide (c ≠ k))).map (suffixName left k "_y")

/-- The right-frame rows whose key cell equals the given non-NaN key value;
a NaN key matches nothing, on either side. -/
def matchingRows (right : DataFrame) (k : String) (kv : Cell) : List Row :=
  match kv with
  | none => []
  | some v => right.rows.filter (fun rr => decide (lookupCell rr k = some v))

/-- The NaN padding appended to an unmatched left row in a left join: every
non-key right column, suffixed as in the merge, holding NaN. -/
def padRight (right : DataFrame) (leftCols : List String) (k : String) : Row :=
  ((right.cols.filter (fun c => decide (c ≠ k))).map (suffixName leftCols k "_y")).map
    (fun c => (c, (none : Cell)))

/-- The left-join image of one left row: one output row per matching right
row (left cells then the non-key right cells), or a single NaN-padded row
when nothing matches. -/
def mergeOne (right : DataFrame) (leftCols : List String) (k : String) (lr : Row) : List Row :=
  let lr' := suffixRow right.cols k "_x" lr
  match matchingRows right k (lookupCell lr k) with
  | [] => [lr' ++ padRight right leftCols k]
  | ms => ms.map (fun rr =>
      lr' ++ suffixRow leftCols k "_y" (rr.filter (fun p => decide (p.1 ≠ k))))

/-- Rows of pd.merge(left, right, on=k, how="left"): the left rows in
order, each replaced by its join image. -/
def mergeRows (left right : DataFrame) (k : String) : List Row :=
  left.rows.flatMap (mergeOne right left.cols k)

/-- The error taxonomy of the program, section 7 of the design: connection
and query failures arise in data access, missingColumn models a raw pandas
KeyError (merge key or fillna column absent), schemaShape is the
explicitly raised expected-column-absent error of line 75, renderError a
savefig failure, fsError a filesystem failure outside the try block. -/
inductive PErr where
  | connectionError (msg : String)
  | queryError (msg : String)
  | missingColumn (c : String)
  | schemaShape (msg : String)
  | renderError (msg : String)
  | fsError (msg : String)
deriving DecidableEq, Repr

/-- pd.merge(left, right, on=k, how="left"); pandas raises KeyError when
the key column is absent from either frame. -/
def mergeLeft (left right : DataFrame) (k : String) : Except PErr DataFrame :=
  if k ∈ left.cols ∧ k ∈ right.cols then
    Except.ok { cols := mergeCols left.cols right.cols k, rows := mergeRows left right k }
  else Except.error (PErr.missingColumn k)

/-- One step of the running tally behind value_counts: increment the count
of v if already seen, otherwise append it with count 1. -/
def bump (v : Val) : List (Val × Nat) → List (Val × Nat)
  | [] => [(v, 1)]
  | (u, n) :: rest => if u = v then (u, n + 1) :: rest else (u, n) :: bump v rest

/-- Occurrence counts of the values of a list, in first-encountered order. -/
def tallyAux : List Val → List (Val × Nat) → List (Val × Nat)
  | [], acc => acc
  | v :: vs, acc => tallyAux vs (bump v acc)

/-- Occurrence counts of the values of a list, in first-encountered order. -/
def tally (l : List Val) : List (Val × Nat) := tallyAux l []

/-- Insert an entry into a list sorted by descending count, before the
first entry of smaller or equal count (so earlier entries stay ahead of
later ones on ties). -/
def insertByCount (x : Val × Nat) : List (Val × Nat) → List (Val × Nat)
  | [] => [x]
  | y :: ys => if y.2 ≤ x.2 then x :: y :: ys else y :: insertByCount x ys

/-- Stable sort by descending count, as value_counts orders its result. -/
def sortByCountDesc (l : List (Val × Nat)) : List (Val × Nat) :=
  l.foldr insertByCount []

/-- The cells of one column of a dataframe with NaN dropped, in row order;
the value sequence that value_counts aggregates. -/
def colCells (df : DataFrame) (c : String) : List Val :=
  (df.rows.map (fun r => lookupCell r c)).filterMap id

/-- df[c].value_counts(): occurrence counts of the non-NaN values of the
column, in descending count order, ties in first-encountered order. -/
def valueCountsCol (df : DataFrame) (c : String) : List (Val × Nat) :=
  sortByCountDesc (tally (colCells df c))

/-- Lines 74-77 of app.py: fail with the explicit schema-shape error when
the joined frame has no department_name column, else count employees per
department name.  The source message carries quoted column names; we keep
its wording without the quotes. -/
def checkAndCountDept (m : DataFrame) : Except PErr (List (Val × Nat)) :=
  if "department_name" ∈ m.cols then Except.ok (valueCountsCol m "department_name")
  else Except.error (PErr.schemaShape
    "Column department_name not found. Please check your departments table.")

/-- Replace the NaN cells of column c of one row by v. -/
def fillRow (c : String) (v : Val) (r : Row) : Row :=
  r.map (fun p => if p.1 = c ∧ p.2 = none then (p.1, some v) else p)

/-- df[c].fillna(v, inplace=True): replace the NaN cells of column c;
pandas raises KeyError when the column is absent. -/
def fillna (df : DataFrame) (c : String) (v : Val) : Except PErr DataFrame :=
  if c ∈ df.cols then
    Except.ok { cols := df.cols, rows := df.rows.map (fillRow c v) }
  else Except.error (PErr.missingColumn c)

/-- The employee-count aggregation of lines 68-77: left join employees
with departments on department_id, then count rows per department name. -/
def employeeCountAgg (employees departments : DataFrame) : Except PErr (List (Val × Nat)) := do
  let m ← mergeLeft employees departments "department_id"
  checkAndCountDept m

/-- The project-count aggregation of lines 95-100: left join project
assignments with the employee-department view on employee_id, fill missing
department names with "Unknown", then count rows per department name. -/
def projectCountAgg (projects empDept : DataFrame) : Except PErr (List (Val × Nat)) := do
  let full ← mergeLeft projects empDept "employee_id"
  let filled ← fillna full "department_name" (Val.vStr "Unknown")
  Except.ok (valueCountsCol filled "department_name")

deriving instance DecidableEq for Except

/-- The environment of one invocation of create_visualizations: the
outcome of the data-access stage (connection plus the three SELECTs), and
oracles for the filesystem effects (directory creation at lines 27-29 and
the two savefig calls). -/
structure Env where
  fetched : Except PErr (DataFrame × DataFrame × DataFrame)
  mkdirFails : Bool
  save1Fails : Bool
  save2Fails : Bool
deriving DecidableEq, Repr

/-- The body of the try block of create_visualizations (lines 32-114):
fetch, normalize, join, count, render, in source order; any raised error
short-circuits.  Returns both aggregations on success. -/
def transformResult (env : Env) : Except PErr (List (Val × Nat) × List (Val × Nat)) := do
  let (employees0, departments0, projects) ← env.fetched
  let departments := normalizeDepartments departments0
  let employees := normalizeEmployees employees0
  let empDept ← mergeLeft employees departments "department_id"
  let deptCounts ← checkAndCountDept empDept
  let _ ← (if env.save1Fails then Except.error (PErr.renderError "savefig employees_per_department.png") else Except.ok ())
  let full ← mergeLeft projects empDept "employee_id"
  let filled ← fillna full "department_name" (Val.vStr "Unknown")
  let projCounts := valueCountsCol filled "department_name"
  let _ ← (if env.save2Fails then Except.error (PErr.renderError "savefig projects_by_department.png") else Except.ok ())
  Except.ok (deptCounts, projCounts)

/-- create_visualizations (lines 22-126).  The os.makedirs call of lines
27-29 runs before the try block, so a filesystem failure there escapes the
function (modelled as Except.error); every error inside the try block is
caught and collapsed to the returned boolean. -/
def create_visualizations (env : Env) : Except PErr Bool :=
  if env.mkdirFails then Except.error (PErr.fsError "makedirs static")
  else Except.ok (match transformResult env with
    | Except.ok _ => true
    | Except.error _ => false)

/-- List-of-characters test that pat occurs at the start of s. -/
def isPrefixOfCharList : List Char → List Char → Bool
  | [], _ => true
  | _ :: _, [] => false
  | a :: as, b :: bs => decide (a = b) && isPrefixOfCharList as bs

/-- List-of-characters substring test. -/
def containsCharList (pat : List Char) : List Char → Bool
  | [] => isPrefixOfCharList pat []
  | a :: rest => isPrefixOfCharList pat (a :: rest) || containsCharList pat rest

/-- Substring test on strings, used to state that a response body
references a filename. -/
def strContains (s pat : String) : Bool :=
  containsCharList pat.data s.data

/-- Modelled from the spec: templates/index.html is not part of src/, so
the rendered success page is modelled from sections 4.3 and 6 of the
design: an HTML document referencing the two generated image filenames as
static assets by relative path. -/
def renderIndexTemplate (plot1 plot2 : String) : String :=
  "<html><body><h1>Employee Dashboard</h1><img src=\"/static/" ++ plot1 ++
    "\"><img src=\"/static/" ++ plot2 ++ "\"></body></html>"

/-- The index route handler of lines 129-138, given the boolean reported
by create_visualizations: HTTP status and HTML body.  On success the two
bare image filenames are passed to the template; on failure the literal
error fragment of line 138 is returned with status 500. -/
def index (success : Bool) : Nat × String :=
  if success then
    (200, renderIndexTemplate "employees_per_department.png" "projects_by_department.png")
  else
    (500, "<h1>Error Generating Visualizations</h1><p>Please check the console output in VS Code for more details on the error.</p>")

/-- One GET / request, on the path where the static directory exists (the
transform-and-render operation returns its boolean rather than raising):
run the pipeline and respond. -/
def handleRequest (env : Env) : Nat × String :=
  index (match transformResult env with
    | Except.ok _ => true
    | Except.error _ => false)

/-- The chart files on disk: filename to the logical chart content (the
category-count table that the saved image renders). -/
abbrev FS := String → Option (List (Val × Nat))

/-- Overwrite one chart file. -/
def setFile (fs : FS) (name : String) (content : List (Val × Nat)) : FS :=
  fun m => if m = name then some content else fs m

/-- create_visualizations with its filesystem effect made explicit: the
returned boolean (none when the makedirs call raises) and the chart files
after the run.  Chart 1 is written before the second join, so its file is
updated even when the second chart fails, as in the source. -/
def createVisualizationsRun (env : Env) (fs : FS) : Option Bool × FS :=
  if env.mkdirFails then (none, fs) else
  match env.fetched with
  | Except.error _ => (some false, fs)
  | Except.ok (employees0, departments0, projects) =>
    let departments := normalizeDepartments departments0
    let employees := normalizeEmployees employees0
    match mergeLeft employees departments "department_id" with
    | Except.error _ => (some false, fs)
    | Except.ok empDept =>
      match checkAndCountDept empDept with
      | Except.error _ => (some false, fs)
      | Except.ok deptCounts =>
        if env.save1Fails then (some false, fs) else
        let fs1 := setFile fs "employees_per_department.png" deptCounts
        match mergeLeft projects empDept "employee_id" with
        | Except.error _ => (some false, fs1)
        | Except.ok full =>
          match fillna full "department_name" (Val.vStr "Unknown") with
          | Except.error _ => (some false, fs1)
          | Except.ok filled =>
            if env.save2Fails then (some false, fs1) else
            (some true, setFile fs1 "projects_by_department.png" (valueCountsCol filled "department_name"))

/-- The employees table of the end-to-end scenario of section 8 of the
design, as read from SQL: columns id and department_id. -/
def employeesEx : DataFrame :=
  { cols := ["id", "department_id"],
    rows := [
      [("id", some (Val.vInt 1)), ("department_id", some (Val.vInt 10))],
      [("id", some (Val.vInt 2)), ("department_id", some (Val.vInt 10))],
      [("id", some (Val.vInt 3)), ("department_id", some (Val.vInt 20))]] }

/-- The departments table of the scenario.  Its display-name field is the
department_name column that the schema dependency of section 6 requires
(the scenario writes it as name for short; with any other column name the
code could not produce the asserted aggregations). -/
def departmentsEx : DataFrame :=
  { cols := ["id", "department_name"],
    rows := [
      [("id", some (Val.vInt 10)), ("department_name", some (Val.vStr "Eng"))],
      [("id", some (Val.vInt 20)), ("department_name", some (Val.vStr "Sales"))]] }

/-- The project_assignments table of the scenario; employee 99 does not
exist. -/
def projectsEx : DataFrame :=
  { cols := ["id", "employee_id"],
    rows := [
      [("id", some (Val.vInt 100)), ("employee_id", some (Val.vInt 1))],
      [("id", some (Val.vInt 101)), ("employee_id", some (Val.vInt 3))],
      [("id", some (Val.vInt 102)), ("employee_id", some (Val.vInt 99))]] }

/-- A healthy environment serving the scenario tables. -/
def envEx : Env :=
  { fetched := Except.ok (employeesEx, departmentsEx, projectsEx),
    mkdirFails := false, save1Fails := false, save2Fails := false }

/-- The employee-department joined view of the scenario, after the column
normalization of lines 51-56. -/
def empDeptEx : DataFrame :=
  { cols := ["employee_id", "department_id", "department_name"],
    rows := [
      [("employee_id", some (Val.vInt 1)), ("department_id", some (Val.vInt 10)),
        ("department_name", some (Val.vStr "Eng"))],
      [("employee_id", some (Val.vInt 2)), ("department_id", some (Val.vInt 10)),
        ("department_name", some (Val.vStr "Eng"))],
      [("employee_id", some (Val.vInt 3)), ("department_id", some (Val.vInt 20)),
        ("department_name", some (Val.vStr "Sales"))]] }

/-- The departments table of the scenario after normalization. -/
def departmentsN : DataFrame :=
  { cols := ["department_id", "department_name"],
    rows := [
      [("department_id", some (Val.vInt 10)), ("department_name", some (Val.vStr "Eng"))],
      [("department_id", some (Val.vInt 20)), ("department_name", some (Val.vStr "Sales"))]] }

/-- A normalized employees table with one employee in an existing
department and one referencing the nonexistent department 99. -/
def employeesEx2 : DataFrame :=
  { cols := ["employee_id", "department_id"],
    rows := [
      [("employee_id", some (Val.vInt 1)), ("department_id", some (Val.vInt 10))],
      [("employee_id", some (Val.vInt 2)), ("department_id", some (Val.vInt 99))]] }

/-- The expected employee-count aggregation of the scenario. -/
def deptCountsEx : List (Val × Nat) := [(Val.vStr "Eng", 2), (Val.vStr "Sales", 1)]

/-- The expected project-count aggregation of the scenario. -/
def projCountsEx : List (Val × Nat) :=
  [(Val.vStr "Eng", 1), (Val.vStr "Sales", 1), (Val.vStr "Unknown", 1)]

/-- The scenario environment, except that creating the static directory
fails (for instance, the parent directory is not writable). -/
def envMkdirFailEx : Env :=
  { fetched := Except.ok (employeesEx, departmentsEx, projectsEx),
    mkdirFails := true, save1Fails := false, save2Fails := false }

/-- An environment whose database connection fails. -/
def envConnFailEx : Env :=
  { fetched := Except.error (PErr.connectionError "connection refused"),
    mkdirFails := false, save1Fails := false, save2Fails := false }

/-- A departments table with no column mappable to department_name. -/
def departmentsNoName : DataFrame :=
  { cols := ["id", "location"],
    rows := [[("id", some (Val.vInt 10)), ("location", some (Val.vStr "HQ"))]] }

/-- The scenario environment with the name-less departments table. -/
def envNoNameEx : Env :=
  { fetched := Except.ok (employeesEx, departmentsNoName, projectsEx),
    mkdirFails := false, save1Fails := false, save2Fails := false }

/-- The number of occurrences of a value in a list. -/
def countOcc (v : Val) : List Val → Nat
  | [] => 0
  | u :: us => (if u = v then 1 else 0) + countOcc v us

/-- The total of a category-count table: the sum of its counts. -/
def sumCounts : List (Val × Nat) → Nat
  | [] => 0
  | p :: l => p.2 + sumCounts l

/-- The count recorded for a value in a category-count table (summing over
duplicate entries, of which value_counts produces none). -/
def getCount (v : Val) : List (Val × Nat) → Nat
  | [] => 0
  | p :: l => (if p.1 = v then p.2 else 0) + getCount v l

/-- The values of a list not in seen, in first-encountered order. -/
def newFirsts : List Val → List Val → List Val
  | _, [] => []
  | seen, v :: vs => if v ∈ seen then newFirsts seen vs else v :: newFirsts (v :: seen) vs

/-- Every pair name of every row is one of the declared columns; true of
any dataframe read from SQL. -/
def RowsConform (df : DataFrame) : Prop := ∀ r ∈ df.rows, ∀ p ∈ r, p.1 ∈ df.cols

/-- The two frames of a merge share no column name other than the join
key, so pandas applies no _x/_y suffixing; true of the employees,
departments and project_assignments schemas of section 6. -/
def NoSharedCols (left right : DataFrame) (k : String) : Prop :=
  ∀ c ∈ left.cols, c ∈ right.cols → c = k

/-- Every row of the frame carries a pair for the given column (possibly
NaN); true of any dataframe read from SQL or produced by a merge. -/
def HasColPair (df : DataFrame) (c : String) : Prop :=
  ∀ r ∈ df.rows, ∃ q ∈ r, q.1 = c

/-- The department name a left row resolves to through a left join against
the given view: the dn cell of the unique matching view row, and NaN when
no or several rows match. -/
def resolvedDeptCell (view : DataFrame) (k dn : String) (lr : Row) : Cell :=
  match matchingRows view k (lookupCell lr k) with
  | [rr] => lookupCell rr dn
  | _ => none

instance (df : DataFrame) : Decidable (RowsConform df) := by
  unfold RowsConform
  infer_instance

instance (left right : DataFrame) (k : String) : Decidable (NoSharedCols left right k) := by
  unfold NoSharedCols
  infer_instance

instance (df : DataFrame) (c : String) : Decidable (HasColPair df c) := by
  unfold HasColPair
  infer_instance

/-- C3: on the section-8 scenario input (employees 1 and 2 in department
10, employee 3 in department 20; departments 10 = Eng and 20 = Sales;
projects for employees 1, 3 and the nonexistent 99), the transform stage
succeeds and produces the employee-count aggregation Eng=2, Sales=1 and
the project-count aggregation Eng=1, Sales=1, Unknown=1. -/
theorem scenario_end_to_end :
    transformResult envEx = Except.ok (deptCountsEx, projCountsEx) := by
  decide

/-- C4: when a departments table already has a department_id column, the
column-normalization step leaves the whole table (hence that column)
unchanged, and likewise for an employees table that already has an
employee_id column: the identifier column is renamed only when the rename
target is absent. -/
theorem normalize_rename_guard (dd ed : DataFrame)
    (hd : "department_id" ∈ dd.cols) (he : "employee_id" ∈ ed.cols) :
    normalizeDepartments dd = dd ∧ normalizeEmployees ed = ed := by
  constructor
  · unfold normalizeDepartments
    rw [if_neg]
    intro h
    exact h.2 hd
  · unfold normalizeEmployees
    rw [if_neg]
    intro h
    exact h.2 he

/-- Witness for C4 at a departments table carrying both id and
department_id and an employees table carrying both id and employee_id. -/
theorem normalize_rename_guard_witness :
    normalizeDepartments { cols := ["id", "department_id"], rows := [] }
        = { cols := ["id", "department_id"], rows := [] } ∧
      normalizeEmployees { cols := ["id", "employee_id"], rows := [] }
        = { cols := ["id", "employee_id"], rows := [] } :=
  normalize_rename_guard _ _ (by decide) (by decide)

/-- C6 counterexample: when creating the static directory fails, the
exception is raised at lines 27-29, before the try block, so
create_visualizations propagates it instead of returning a boolean: the
operation does raise. -/
theorem create_visualizations_can_raise :
    ¬ ∃ b : Bool, create_visualizations envMkdirFailEx = Except.ok b := by
  rintro ⟨b, hb⟩
  simp [create_visualizations, envMkdirFailEx] at hb

/-- C6 as amended: provided the static-directory creation of lines 27-29
succeeds, every error raised in the transform-and-render body - all four
taxonomy kinds: connection/configuration, query, schema-shape,
rendering/filesystem - is caught at the function boundary and collapsed
into the returned boolean failure, and the operation does not raise. -/
theorem errors_collapse_to_false (env : Env) (hmk : env.mkdirFails = false)
    (e : PErr) (he : transformResult env = Except.error e) :
    create_visualizations env = Except.ok false := by
  simp [create_visualizations, hmk, he]

/-- Witness for the amended C6 at a concrete connection failure. -/
theorem errors_collapse_to_false_witness :
    create_visualizations envConnFailEx = Except.ok false :=
  errors_collapse_to_false envConnFailEx rfl (PErr.connectionError "connection refused") rfl

/-- C7: on a GET / request, a reported success yields status 200 with an
HTML body referencing both generated image filenames, and a reported
failure yields status 500 with the fixed minimal error fragment, whose
text does not depend on which error occurred (the failure detail never
reaches the response body). -/
theorem index_route_contract (env env' : Env) :
    ((∃ r, transformResult env = Except.ok r) →
      (handleRequest env).1 = 200 ∧
        strContains (handleRequest env).2 "employees_per_department.png" = true ∧
        strContains (handleRequest env).2 "projects_by_department.png" = true) ∧
    ((∃ e, transformResult env = Except.error e) →
      (handleRequest env).1 = 500 ∧
        (handleRequest env).2 = "<h1>Error Generating Visualizations</h1><p>Please check the console output in VS Code for more details on the error.</p>") ∧
    ((∃ e, transformResult env = Except.error e) →
      (∃ e, transformResult env' = Except.error e) →
      (handleRequest env).2 = (handleRequest env').2) := by
  refine ⟨?_, ?_, ?_⟩
  · rintro ⟨r, hr⟩
    simp only [handleRequest, hr]
    exact ⟨rfl, by decide, by decide⟩
  · rintro ⟨e, he⟩
    simp only [handleRequest, he]
    exact ⟨rfl, rfl⟩
  · rintro ⟨e, he⟩ ⟨e', he'⟩
    simp only [handleRequest, he, he']

/-- Witness for C7: the scenario environment succeeds with a 200 response
naming both images, and a connection failure yields the 500 fragment. -/
theorem index_route_contract_witness :
    (handleRequest envEx).1 = 200 ∧
      strContains (handleRequest envEx).2 "employees_per_department.png" = true ∧
      strContains (handleRequest envEx).2 "projects_by_department.png" = true ∧
      (handleRequest envConnFailEx).1 = 500 :=
  let h := index_route_contract envEx envConnFailEx
  let hok : ∃ r, transformResult envEx = Except.ok r :=
    ⟨(deptCountsEx, projCountsEx), by decide⟩
  let herr : ∃ e, transformResult envConnFailEx = Except.error e :=
    ⟨PErr.connectionError "connection refused", rfl⟩
  ⟨(h.1 hok).1, (h.1 hok).2.1, (h.1 hok).2.2,
    ((index_route_contract envConnFailEx envEx).2.1 herr).1⟩

/-- C8: invoking the transform-and-render operation twice in succession in
the same unchanged environment reports the same outcome and leaves both
chart files with identical logical content (same category-count tables),
whatever the initial state of the files was. -/
theorem transform_render_idempotent (env : Env) (fs : FS) :
    (createVisualizationsRun env (createVisualizationsRun env fs).2).1
        = (createVisualizationsRun env fs).1 ∧
      (createVisualizationsRun env (createVisualizationsRun env fs).2).2 "employees_per_department.png"
        = (createVisualizationsRun env fs).2 "employees_per_department.png" ∧
      (createVisualizationsRun env (createVisualizationsRun env fs).2).2 "projects_by_department.png"
        = (createVisualizationsRun env fs).2 "projects_by_department.png" := by
  have hne : ("projects_by_department.png" : String) ≠ "employees_per_department.png" := by decide
  have hne' : ("employees_per_department.png" : String) ≠ "projects_by_department.png" := by decide
  cases hmk : env.mkdirFails with
  | true => simp [createVisualizationsRun, hmk]
  | false =>
    cases hf : env.fetched with
    | error e => simp [createVisualizationsRun, hmk, hf]
    | ok t =>
      obtain ⟨e0, d0, p⟩ := t
      cases hm : mergeLeft (normalizeEmployees e0) (normalizeDepartments d0) "department_id" with
      | error e => simp [createVisualizationsRun, hmk, hf, hm]
      | ok empDept =>
        cases hc : checkAndCountDept empDept with
        | error e => simp [createVisualizationsRun, hmk, hf, hm, hc]
        | ok dcounts =>
          cases hs1 : env.save1Fails with
          | true => simp [createVisualizationsRun, hmk, hf, hm, hc, hs1]
          | false =>
            cases hm2 : mergeLeft p empDept "employee_id" with
            | error e => simp [createVisualizationsRun, hmk, hf, hm, hc, hs1, hm2, setFile, hne, hne']
            | ok full =>
              cases hfi : fillna full "department_name" (Val.vStr "Unknown") with
              | error e =>
                simp [createVisualizationsRun, hmk, hf, hm, hc, hs1, hm2, hfi, setFile, hne, hne']
              | ok filled =>
                cases hs2 : env.save2Fails with
                | true =>
                  simp [createVisualizationsRun, hmk, hf, hm, hc, hs1, hm2, hfi, hs2, setFile, hne, hne']
                | false =>
                  simp [createVisualizationsRun, hmk, hf, hm, hc, hs1, hm2, hfi, hs2, setFile, hne, hne']

/-- bump adds one to the total of a tally. -/
theorem sumCounts_bump (v : Val) (acc : List (Val × Nat)) :
    sumCounts (bump v acc) = sumCounts acc + 1 := by
  induction acc with
  | nil => simp [bump, sumCounts]
  | cons p rest ih =>
    obtain ⟨u, n⟩ := p
    by_cases h : u = v
    · simp [bump, h, sumCounts]
      omega
    · simp [bump, h, sumCounts, ih]
      omega

/-- Tallying a list on top of an accumulator adds the list length to the
total. -/
theorem sumCounts_tallyAux (l : List Val) :
    ∀ acc, sumCounts (tallyAux l acc) = sumCounts acc + l.length := by
  induction l with
  | nil => intro acc; simp [tallyAux]
  | cons v vs ih =>
    intro acc
    simp [tallyAux, ih, sumCounts_bump]
    omega

/-- The total of a tally is the length of the tallied list. -/
theorem sumCounts_tally (l : List Val) : sumCounts (tally l) = l.length := by
  simp [tally, sumCounts_tallyAux, sumCounts]

/-- bump touches only the count of the bumped value. -/
theorem getCount_bump (v w : Val) (acc : List (Val × Nat)) :
    getCount w (bump v acc) = getCount w acc + (if v = w then 1 else 0) := by
  induction acc with
  | nil => by_cases hw : v = w <;> simp [bump, getCount, hw]
  | cons p rest ih =>
    obtain ⟨u, n⟩ := p
    by_cases h : u = v
    · by_cases hw : v = w <;> simp [bump, getCount, h, hw] <;> omega
    · simp [bump, getCount, h, ih]
      omega

/-- Tallying on top of an accumulator adds the occurrence count of each
value. -/
theorem getCount_tallyAux (w : Val) (l : List Val) :
    ∀ acc, getCount w (tallyAux l acc) = getCount w acc + countOcc w l := by
  induction l with
  | nil => intro acc; simp [tallyAux, countOcc]
  | cons v vs ih =>
    intro acc
    simp [tallyAux, ih, getCount_bump, countOcc]
    omega

/-- A tally records exactly the occurrence count of each value. -/
theorem getCount_tally (w : Val) (l : List Val) : getCount w (tally l) = countOcc w l := by
  simp [tally, getCount_tallyAux, getCount]

/-- Inserting an entry adds its count to the total. -/
theorem sumCounts_insertByCount (x : Val × Nat) (l : List (Val × Nat)) :
    sumCounts (insertByCount x l) = x.2 + sumCounts l := by
  induction l with
  | nil => simp [insertByCount, sumCounts]
  | cons y ys ih =>
    by_cases h : y.2 ≤ x.2 <;> simp [insertByCount, h, sumCounts, ih] <;> omega

/-- Sorting by descending count preserves the total. -/
theorem sumCounts_sortByCountDesc (l : List (Val × Nat)) :
    sumCounts (sortByCountDesc l) = sumCounts l := by
  induction l with
  | nil => rfl
  | cons x l ih =>
    simp only [sortByCountDesc, List.foldr_cons] at *
    rw [sumCounts_insertByCount, ih]
    simp [sumCounts]

/-- Inserting an entry adds its count to the count of its value. -/
theorem getCount_insertByCount (w : Val) (x : Val × Nat) (l : List (Val × Nat)) :
    getCount w (insertByCount x l) = getCount w l + (if x.1 = w then x.2 else 0) := by
  induction l with
  | nil => simp [insertByCount, getCount]
  | cons y ys ih =>
    by_cases h : y.2 ≤ x.2 <;> simp [insertByCount, h, getCount, ih] <;> omega

/-- Sorting by descending count preserves the count of every value. -/
theorem getCount_sortByCountDesc (w : Val) (l : List (Val × Nat)) :
    getCount w (sortByCountDesc l) = getCount w l := by
  induction l with
  | nil => rfl
  | cons x l ih =>
    simp only [sortByCountDesc, List.foldr_cons] at *
    rw [getCount_insertByCount, ih]
    simp [getCount]
    omega

/-- Insertion adds exactly the inserted entry to the members. -/
theorem mem_insertByCount (y x : Val × Nat) (l : List (Val × Nat)) :
    y ∈ insertByCount x l ↔ y = x ∨ y ∈ l := by
  induction l with
  | nil => simp [insertByCount]
  | cons z zs ih =>
    by_cases h : z.2 ≤ x.2 <;> simp [insertByCount, h, ih] <;> tauto

/-- Sorting by descending count preserves the members. -/
theorem mem_sortByCountDesc (y : Val × Nat) (l : List (Val × Nat)) :
    y ∈ sortByCountDesc l ↔ y ∈ l := by
  induction l with
  | nil => simp [sortByCountDesc]
  | cons x l ih =>
    simp only [sortByCountDesc, List.foldr_cons] at *
    rw [mem_insertByCount]
    simp [ih]

/-- newFirsts depends on seen only through membership. -/
theorem newFirsts_congr (l : List Val) :
    ∀ s₁ s₂, (∀ x, x ∈ s₁ ↔ x ∈ s₂) → newFirsts s₁ l = newFirsts s₂ l := by
  induction l with
  | nil => intro s₁ s₂ _; rfl
  | cons v vs ih =>
    intro s₁ s₂ h
    by_cases hv : v ∈ s₁
    · rw [newFirsts, newFirsts, if_pos hv, if_pos ((h v).mp hv)]
      exact ih s₁ s₂ h
    · rw [newFirsts, newFirsts, if_neg hv, if_neg (fun hc => hv ((h v).mpr hc))]
      rw [ih (v :: s₁) (v :: s₂) (fun x => by simp [h x])]

/-- A value listed by newFirsts is new (not in seen) and in the list. -/
theorem mem_newFirsts (x : Val) (l : List Val) :
    ∀ seen, x ∈ newFirsts seen l → x ∉ seen ∧ x ∈ l := by
  induction l with
  | nil => intro seen h; simp [newFirsts] at h
  | cons v vs ih =>
    intro seen h
    rw [newFirsts] at h
    by_cases hv : v ∈ seen
    · rw [if_pos hv] at h
      obtain ⟨h1, h2⟩ := ih seen h
      exact ⟨h1, List.mem_cons_of_mem v h2⟩
    · rw [if_neg hv] at h
      rcases List.mem_cons.mp h with rfl | h'
      · exact ⟨hv, List.mem_cons_self x vs⟩
      · obtain ⟨h1, h2⟩ := ih (v :: seen) h'
        exact ⟨fun hc => h1 (List.mem_cons_of_mem v hc), List.mem_cons_of_mem v h2⟩

/-- The first-encountered values of a list are listed in strictly
increasing first-occurrence order. -/
theorem pairwise_findIdx_newFirsts (l : List Val) :
    ∀ seen, (newFirsts seen l).Pairwise (fun u w =>
      l.findIdx (fun c => decide (c = u)) < l.findIdx (fun c => decide (c = w))) := by
  induction l with
  | nil => intro seen; simp [newFirsts]
  | cons v vs ih =>
    intro seen
    rw [newFirsts]
    by_cases hv : v ∈ seen
    · rw [if_pos hv]
      refine List.Pairwise.imp_of_mem ?_ (ih seen)
      intro u w hu hw h
      have hu' : ¬ (v = u) := fun hc => (mem_newFirsts u vs seen hu).1 (hc ▸ hv)
      have hw' : ¬ (v = w) := fun hc => (mem_newFirsts w vs seen hw).1 (hc ▸ hv)
      rw [List.findIdx_cons, List.findIdx_cons, decide_eq_false hu', decide_eq_false hw',
        cond_false, cond_false]
      omega
    · rw [if_neg hv]
      refine List.pairwise_cons.mpr ⟨?_, ?_⟩
      · intro w hw
        have hw' : ¬ (v = w) :=
          fun hc => (mem_newFirsts w vs (v :: seen) hw).1 (hc ▸ List.mem_cons_self v seen)
        rw [List.findIdx_cons, List.findIdx_cons, decide_eq_true rfl, decide_eq_false hw',
          cond_true, cond_false]
        omega
      · refine List.Pairwise.imp_of_mem ?_ (ih (v :: seen))
        intro u w hu hw h
        have hu' : ¬ (v = u) :=
          fun hc => (mem_newFirsts u vs (v :: seen) hu).1 (hc ▸ List.mem_cons_self v seen)
        have hw' : ¬ (v = w) :=
          fun hc => (mem_newFirsts w vs (v :: seen) hw).1 (hc ▸ List.mem_cons_self v seen)
        rw [List.findIdx_cons, List.findIdx_cons, decide_eq_false hu', decide_eq_false hw',
          cond_false, cond_false]
        omega

/-- bump either leaves the recorded names unchanged or appends the new
name at the end. -/
theorem names_bump (v : Val) (acc : List (Val × Nat)) :
    (bump v acc).map Prod.fst =
      if v ∈ acc.map Prod.fst then acc.map Prod.fst else acc.map Prod.fst ++ [v] := by
  induction acc with
  | nil => simp [bump]
  | cons p rest ih =>
    obtain ⟨u, n⟩ := p
    by_cases h : u = v
    · simp [bump, h]
    · by_cases hm : v ∈ rest.map Prod.fst
      · simp only [bump, if_neg h, List.map_cons, ih, if_pos hm]
        rw [if_pos]
        exact List.mem_cons_of_mem _ hm
      · simp only [bump, if_neg h, List.map_cons, ih, if_neg hm]
        rw [if_neg]
        · simp
        · intro hc
          rcases List.mem_cons.mp hc with hc1 | hc2
          · exact h hc1.symm
          · exact hm hc2

/-- The names of a tally built on an accumulator: the accumulator names
followed by the first encounters of the remaining list. -/
theorem names_tallyAux (l : List Val) :
    ∀ acc, (tallyAux l acc).map Prod.fst =
      acc.map Prod.fst ++ newFirsts (acc.map Prod.fst) l := by
  induction l with
  | nil => intro acc; simp [tallyAux, newFirsts]
  | cons v vs ih =>
    intro acc
    rw [tallyAux, ih, names_bump, newFirsts]
    by_cases hm : v ∈ acc.map Prod.fst
    · rw [if_pos hm, if_pos hm]
    · rw [if_neg hm, if_neg hm]
      rw [newFirsts_congr vs (acc.map Prod.fst ++ [v]) (v :: acc.map Prod.fst)
        (fun x => by simp; tauto)]
      simp

/-- The names of a tally are the values of the list in first-encountered
order. -/
theorem names_tally (l : List Val) : (tally l).map Prod.fst = newFirsts [] l := by
  rw [tally, names_tallyAux]
  simp

/-- The entries of a tally are listed in strictly increasing
first-occurrence order of their values. -/
theorem pairwise_findIdx_tally (l : List Val) :
    (tally l).Pairwise (fun a b =>
      l.findIdx (fun c => decide (c = a.1)) < l.findIdx (fun c => decide (c = b.1))) := by
  have h := pairwise_findIdx_newFirsts l []
  rw [← names_tally] at h
  exact (@List.pairwise_map (Val × Nat) Val Prod.fst
    (fun u w => l.findIdx (fun c => decide (c = u)) < l.findIdx (fun c => decide (c = w)))
    (tally l)).mp h

/-- Inserting an entry that was first encountered before everything in a
sorted-by-descending-count, tie-ordered list keeps the list sorted and
tie-ordered. -/
theorem pairwise_insertByCount (fIdx : Val → Nat) (x : Val × Nat) (s : List (Val × Nat))
    (hs : s.Pairwise (fun a b => b.2 ≤ a.2 ∧ (a.2 = b.2 → fIdx a.1 < fIdx b.1)))
    (hx : ∀ y ∈ s, fIdx x.1 < fIdx y.1) :
    (insertByCount x s).Pairwise (fun a b => b.2 ≤ a.2 ∧ (a.2 = b.2 → fIdx a.1 < fIdx b.1)) := by
  induction s with
  | nil => simp [insertByCount]
  | cons y ys ih =>
    obtain ⟨hy, hys⟩ := List.pairwise_cons.mp hs
    by_cases h : y.2 ≤ x.2
    · simp only [insertByCount, if_pos h]
      refine List.pairwise_cons.mpr ⟨?_, hs⟩
      intro z hz
      rcases List.mem_cons.mp hz with rfl | hz'
      · exact ⟨h, fun _ => hx z (List.mem_cons_self z ys)⟩
      · exact ⟨le_trans (hy z hz').1 h, fun _ => hx z (List.mem_cons_of_mem y hz')⟩
    · simp only [insertByCount, if_neg h]
      refine List.pairwise_cons.mpr
        ⟨?_, ih hys (fun z hz => hx z (List.mem_cons_of_mem y hz))⟩
      intro z hz
      rcases (mem_insertByCount z x ys).mp hz with rfl | hz'
      · exact ⟨Nat.le_of_lt (Nat.lt_of_not_le h), fun hc => absurd hc.symm (by omega)⟩
      · exact hy z hz'

/-- Sorting a list whose entries are in first-occurrence order yields a
list sorted by descending count with ties in first-occurrence order. -/
theorem pairwise_sortByCountDesc (fIdx : Val → Nat) (l : List (Val × Nat))
    (hl : l.Pairwise (fun a b => fIdx a.1 < fIdx b.1)) :
    (sortByCountDesc l).Pairwise
      (fun a b => b.2 ≤ a.2 ∧ (a.2 = b.2 → fIdx a.1 < fIdx b.1)) := by
  induction l with
  | nil => simp [sortByCountDesc]
  | cons x l ih =>
    obtain ⟨hx, hl'⟩ := List.pairwise_cons.mp hl
    simp only [sortByCountDesc, List.foldr_cons]
    exact pairwise_insertByCount fIdx x _ (ih hl')
      (fun y hy => hx y ((mem_sortByCountDesc y l).mp hy))

/-- When the first merge yields m, the employee-count aggregation is the
check-then-count of m. -/
theorem employeeCountAgg_of_merge (e d m : DataFrame)
    (hm : mergeLeft e d "department_id" = Except.ok m) :
    employeeCountAgg e d = checkAndCountDept m := by
  unfold employeeCountAgg
  rw [hm]
  rfl

/-- C9: the employee-count aggregation used for the bar chart lists
departments in descending order of count, and two departments of equal
count appear in the order their names are first encountered in the
department-name column of the joined table. -/
theorem bar_chart_order (e d m : DataFrame) (counts : List (Val × Nat))
    (hm : mergeLeft e d "department_id" = Except.ok m)
    (hc : employeeCountAgg e d = Except.ok counts) :
    counts.Pairwise (fun a b => b.2 ≤ a.2 ∧
      (a.2 = b.2 →
        (colCells m "department_name").findIdx (fun c => decide (c = a.1))
          < (colCells m "department_name").findIdx (fun c => decide (c = b.1)))) := by
  rw [employeeCountAgg_of_merge e d m hm] at hc
  unfold checkAndCountDept at hc
  by_cases h : "department_name" ∈ m.cols
  · rw [if_pos h] at hc
    injection hc with hc'
    subst hc'
    unfold valueCountsCol
    exact pairwise_sortByCountDesc
      (fun v => (colCells m "department_name").findIdx (fun c => decide (c = v)))
      (tally (colCells m "department_name"))
      (pairwise_findIdx_tally (colCells m "department_name"))
  · rw [if_neg h] at hc
    exact absurd hc (by simp)

/-- Witness for C9 on the scenario: Eng=2 then Sales=1 is descending with
the tie-break vacuous, derived through the theorem. -/
theorem bar_chart_order_witness :
    deptCountsEx.Pairwise (fun a b => b.2 ≤ a.2 ∧
      (a.2 = b.2 →
        (colCells empDeptEx "department_name").findIdx (fun c => decide (c = a.1))
          < (colCells empDeptEx "department_name").findIdx (fun c => decide (c = b.1)))) :=
  bar_chart_order (normalizeEmployees employeesEx) (normalizeDepartments departmentsEx)
    empDeptEx deptCountsEx (by decide) (by decide)

/-- flatMap respects pointwise equality on the list's members. -/
theorem flatMap_congr_mem {α β : Type} (l : List α) (f g : α → List β)
    (h : ∀ a ∈ l, f a = g a) : l.flatMap f = l.flatMap g := by
  induction l with
  | nil => rfl
  | cons a rest ih =>
    rw [List.flatMap_cons, List.flatMap_cons, h a (List.mem_cons_self a rest),
      ih (fun x hx => h x (List.mem_cons_of_mem a hx))]

/-- Reading a cell of a nonempty row. -/
theorem lookupCell_cons (p : String × Cell) (r : Row) (c : String) :
    lookupCell (p :: r) c = if p.1 = c then p.2 else lookupCell r c := by
  unfold lookupCell
  by_cases h : p.1 = c
  · rw [List.find?_cons_of_pos _ (by simp [h]), if_pos h]
  · rw [List.find?_cons_of_neg _ (by simp [h]), if_neg h]

/-- A cell read skips a prefix none of whose pairs carry the column. -/
theorem lookupCell_append_of_ne (r₁ r₂ : Row) (c : String)
    (h : ∀ p ∈ r₁, p.1 ≠ c) : lookupCell (r₁ ++ r₂) c = lookupCell r₂ c := by
  induction r₁ with
  | nil => rfl
  | cons p ps ih =>
    rw [List.cons_append, lookupCell_cons, if_neg (h p (List.mem_cons_self p ps))]
    exact ih (fun q hq => h q (List.mem_cons_of_mem p hq))

/-- Dropping the key pairs of a row does not change any other column. -/
theorem lookupCell_filter_ne (r : Row) (k c : String) (hck : c ≠ k) :
    lookupCell (r.filter (fun p => decide (p.1 ≠ k))) c = lookupCell r c := by
  induction r with
  | nil => rfl
  | cons p ps ih =>
    by_cases hp : p.1 = k
    · rw [List.filter_cons, if_neg (by simp [hp]), lookupCell_cons,
        if_neg (fun hc => hck (hc.symm.trans hp))]
      exact ih
    · rw [List.filter_cons, if_pos (by simp [hp]), lookupCell_cons, lookupCell_cons]
      by_cases hc : p.1 = c
      · rw [if_pos hc, if_pos hc]
      · rw [if_neg hc, if_neg hc]
        exact ih

/-- Suffixing is the identity on a row none of whose pair names overlap
the other frame. -/
theorem suffixRow_eq_self (other : List String) (k suf : String) (r : Row)
    (h : ∀ p ∈ r, ¬ (p.1 ≠ k ∧ p.1 ∈ other)) : suffixRow other k suf r = r := by
  unfold suffixRow
  induction r with
  | nil => rfl
  | cons p ps ih =>
    rw [List.map_cons,
      show suffixName other k suf p.1 = p.1 from by
        unfold suffixName
        rw [if_neg (h p (List.mem_cons_self p ps))],
      ih (fun q hq => h q (List.mem_cons_of_mem p hq))]

/-- Every cell of an all-NaN row reads as NaN. -/
theorem lookupCell_map_none (names : List String) (c : String) :
    lookupCell (names.map (fun n => (n, (none : Cell)))) c = none := by
  induction names with
  | nil => rfl
  | cons n rest ih =>
    rw [List.map_cons, lookupCell_cons]
    by_cases h : n = c
    · rw [if_pos h]
    · rw [if_neg h]
      exact ih

/-- Every cell of the NaN padding of an unmatched row reads as NaN. -/
theorem lookupCell_padRight (right : DataFrame) (leftCols : List String) (k c : String) :
    lookupCell (padRight right leftCols k) c = none :=
  lookupCell_map_none _ c

/-- A matching row is a row of the right frame. -/
theorem matchingRows_subset (right : DataFrame) (k : String) (kv : Cell) (rr : Row)
    (h : rr ∈ matchingRows right k kv) : rr ∈ right.rows := by
  unfold matchingRows at h
  cases kv with
  | none => simp at h
  | some v => exact (List.mem_filter.mp h).1

/-- The dn cells of the join image of one left row: NaN for an unmatched
row, and the dn cell of each matching right row otherwise; holds when the
frames share no non-key columns, the left row's names avoid dn and the
join key differs from dn. -/
theorem mergeOne_cells (right : DataFrame) (leftCols : List String) (k dn : String) (lr : Row)
    (hdnk : dn ≠ k)
    (hlr : ∀ p ∈ lr, p.1 ∈ leftCols)
    (hRc : RowsConform right)
    (hshared : ∀ c ∈ leftCols, c ∈ right.cols → c = k)
    (hdnL : dn ∉ leftCols) :
    (mergeOne right leftCols k lr).map (fun r => lookupCell r dn) =
      (match matchingRows right k (lookupCell lr k) with
        | [] => [(none : Cell)]
        | ms => ms.map (fun rr => lookupCell rr dn)) := by
  have hsuffL : suffixRow right.cols k "_x" lr = lr :=
    suffixRow_eq_self _ _ _ _ (fun p hp hand => hand.1 (hshared p.1 (hlr p hp) hand.2))
  have hlrne : ∀ p ∈ lr, p.1 ≠ dn := fun p hp hc => hdnL (hc ▸ hlr p hp)
  unfold mergeOne
  rw [hsuffL]
  cases hms : matchingRows right k (lookupCell lr k) with
  | nil =>
    show List.map (fun r => lookupCell r dn) [lr ++ padRight right leftCols k] = [(none : Cell)]
    rw [List.map_cons, List.map_nil,
      lookupCell_append_of_ne _ _ _ hlrne, lookupCell_padRight]
  | cons rr ms' =>
    show List.map (fun r => lookupCell r dn)
        (List.map (fun rr => lr ++ suffixRow leftCols k "_y"
          (rr.filter (fun p => decide (p.1 ≠ k)))) (rr :: ms'))
      = List.map (fun rr => lookupCell rr dn) (rr :: ms')
    rw [List.map_map]
    apply List.map_congr_left
    intro rr' hrr'
    have hmem : rr' ∈ right.rows := matchingRows_subset right k _ rr' (hms ▸ hrr')
    have hconf : ∀ p ∈ rr', p.1 ∈ right.cols := hRc rr' hmem
    show lookupCell (lr ++ suffixRow leftCols k "_y"
      (rr'.filter (fun p => decide (p.1 ≠ k)))) dn = lookupCell rr' dn
    rw [suffixRow_eq_self leftCols k "_y" _ (fun p hp hand =>
      hand.1 (hshared p.1 hand.2 (hconf p (List.mem_filter.mp hp).1)))]
    rw [lookupCell_append_of_ne _ _ _ hlrne]
    exact lookupCell_filter_ne rr' k dn hdnk

/-- The dn column of a left join, row by row: the dn cell of the matching
right rows, NaN where nothing matches. -/
theorem mergeRows_cells (left right : DataFrame) (k dn : String)
    (hdnk : dn ≠ k) (hLc : RowsConform left) (hRc : RowsConform right)
    (hshared : NoSharedCols left right k) (hdnL : dn ∉ left.cols) :
    (mergeRows left right k).map (fun r => lookupCell r dn) =
      left.rows.flatMap (fun lr =>
        match matchingRows right k (lookupCell lr k) with
        | [] => [(none : Cell)]
        | ms => ms.map (fun rr => lookupCell rr dn)) := by
  unfold mergeRows
  rw [List.map_flatMap]
  exact flatMap_congr_mem _ _ _ (fun lr hlr =>
    mergeOne_cells right left.cols k dn lr hdnk (hLc lr hlr) hRc hshared hdnL)

/-- A non-key right column absent from the left frame survives the merge
under its own name. -/
theorem mem_mergeCols_of_right (left right : List String) (k c : String)
    (hc : c ∈ right) (hck : c ≠ k) (hcl : c ∉ left) :
    c ∈ mergeCols left right k := by
  unfold mergeCols
  refine List.mem_append.mpr (Or.inr ?_)
  refine List.mem_map.mpr ⟨c, List.mem_filter.mpr ⟨hc, by simp [hck]⟩, ?_⟩
  unfold suffixName
  rw [if_neg]
  intro hand
  exact hcl hand.2

/-- The employee-count aggregation computed on well-shaped tables: the
first merge succeeds, the department_name check passes, and the result is
the sorted tally of the joined department-name column, written through
the join as the matched department names. -/
theorem employeeCountAgg_ok (e d : DataFrame)
    (hek : "department_id" ∈ e.cols) (hdk : "department_id" ∈ d.cols)
    (hdn : "department_name" ∈ d.cols) (hdnE : "department_name" ∉ e.cols)
    (hEc : RowsConform e) (hDc : RowsConform d)
    (hshared : NoSharedCols e d "department_id") :
    employeeCountAgg e d = Except.ok (sortByCountDesc (tally
      ((e.rows.flatMap (fun lr =>
        match matchingRows d "department_id" (lookupCell lr "department_id") with
        | [] => [(none : Cell)]
        | ms => ms.map (fun rr => lookupCell rr "department_name"))).filterMap id))) := by
  have hmerge : mergeLeft e d "department_id" =
      Except.ok { cols := mergeCols e.cols d.cols "department_id",
                  rows := mergeRows e d "department_id" } := by
    unfold mergeLeft
    rw [if_pos ⟨hek, hdk⟩]
  rw [employeeCountAgg_of_merge e d _ hmerge]
  unfold checkAndCountDept
  rw [if_pos (mem_mergeCols_of_right e.cols d.cols "department_id" "department_name"
    hdn (by decide) hdnE)]
  unfold valueCountsCol colCells
  have hrows : (DataFrame.mk (mergeCols e.cols d.cols "department_id")
      (mergeRows e d "department_id")).rows = mergeRows e d "department_id" := rfl
  rw [hrows, mergeRows_cells e d "department_id" "department_name" (by decide) hEc hDc
    hshared hdnE]

/-- Counting the non-NaN department-name cells of a left join where every
left row matches at most one right row: one counted cell per left row that
resolves to a department name. -/
theorem count_resolved_general (d : DataFrame) (k dn : String) (rs : List Row)
    (h : ∀ lr ∈ rs, (matchingRows d k (lookupCell lr k)).length ≤ 1) :
    ((rs.flatMap (fun lr =>
      match matchingRows d k (lookupCell lr k) with
      | [] => [(none : Cell)]
      | ms => ms.map (fun rr => lookupCell rr dn))).filterMap id).length =
      (rs.filter (fun lr => decide (resolvedDeptCell d k dn lr ≠ none))).length := by
  induction rs with
  | nil => rfl
  | cons lr rest ih =>
    rw [List.flatMap_cons, List.filterMap_append, List.length_append, List.filter_cons]
    have hrest := ih (fun x hx => h x (List.mem_cons_of_mem lr hx))
    cases hms : matchingRows d k (lookupCell lr k) with
    | nil =>
      have hres : resolvedDeptCell d k dn lr = none := by
        unfold resolvedDeptCell
        rw [hms]
      simp only [hms]
      simp [hres, hrest]
    | cons rr ms' =>
      have hone := h lr (List.mem_cons_self lr rest)
      rw [hms] at hone
      have hms0 : ms' = [] := by
        rw [List.length_cons] at hone
        exact List.length_eq_zero.mp (by omega)
      subst hms0
      have hres : resolvedDeptCell d k dn lr = lookupCell rr dn := by
        unfold resolvedDeptCell
        rw [hms]
      simp only [hms]
      cases hv : lookupCell rr dn with
      | none => simp [hres, hv, hrest]
      | some v =>
        simp [hres, hv, hrest]
        omega

/-- A filter that rejects some member of the list is strictly shorter than
the list. -/
theorem filter_length_lt {α : Type} (l : List α) (p : α → Bool) (x : α)
    (hx : x ∈ l) (hpx : p x = false) : (l.filter p).length < l.length := by
  induction l with
  | nil => simp at hx
  | cons a rest ih =>
    rw [List.filter_cons]
    rcases List.mem_cons.mp hx with rfl | hx'
    · rw [if_neg (by simp [hpx])]
      exact Nat.lt_succ_of_le (List.length_filter_le p rest)
    · by_cases ha : p a = true
      · rw [if_pos ha]
        simpa using Nat.succ_lt_succ (ih hx')
      · rw [if_neg (by simp [ha])]
        exact Nat.lt_succ_of_lt (ih hx')

/-- C1: for well-shaped employees and departments tables (department_id a
key of both, departments carrying department identifiers that identify a
unique row and a non-NULL department_name, no other shared columns) in
which every employee department reference matches a department, the
employee-count aggregation totals exactly the number of employee rows. -/
theorem employee_counts_total (e d : DataFrame)
    (hek : "department_id" ∈ e.cols) (hdk : "department_id" ∈ d.cols)
    (hdn : "department_name" ∈ d.cols) (hdnE : "department_name" ∉ e.cols)
    (hEc : RowsConform e) (hDc : RowsConform d)
    (hshared : NoSharedCols e d "department_id")
    (hmatch : ∀ lr ∈ e.rows,
      (matchingRows d "department_id" (lookupCell lr "department_id")).length = 1 ∧
        resolvedDeptCell d "department_id" "department_name" lr ≠ none) :
    ∃ counts, employeeCountAgg e d = Except.ok counts ∧ sumCounts counts = e.rows.length := by
  refine ⟨_, employeeCountAgg_ok e d hek hdk hdn hdnE hEc hDc hshared, ?_⟩
  rw [sumCounts_sortByCountDesc, sumCounts_tally,
    count_resolved_general d "department_id" "department_name" e.rows
      (fun lr hlr => le_of_eq (hmatch lr hlr).1),
    List.filter_eq_self.mpr (fun lr hlr => decide_eq_true (hmatch lr hlr).2)]

/-- Witness for C1 on the normalized scenario tables: the three employee
rows all resolve, and the aggregation totals 3. -/
theorem employee_counts_total_witness :
    ∃ counts,
      employeeCountAgg (normalizeEmployees employeesEx) (normalizeDepartments departmentsEx)
          = Except.ok counts ∧
        sumCounts counts = (normalizeEmployees employeesEx).rows.length :=
  employee_counts_total _ _ (by decide) (by decide) (by decide) (by decide) (by decide)
    (by decide) (by decide) (by decide)

/-- C10: the bar-chart aggregation drops employees whose department
reference matches nothing: the total equals the number of employee rows
that resolve to a department name, every listed label is an actual
department name from the departments table (no synthetic Unknown bucket),
and the total is strictly below the employee row count as soon as one
employee fails to resolve. -/
theorem bar_chart_drops_unmatched (e d : DataFrame)
    (hek : "department_id" ∈ e.cols) (hdk : "department_id" ∈ d.cols)
    (hdn : "department_name" ∈ d.cols) (hdnE : "department_name" ∉ e.cols)
    (hEc : RowsConform e) (hDc : RowsConform d)
    (hshared : NoSharedCols e d "department_id")
    (hone : ∀ lr ∈ e.rows,
      (matchingRows d "department_id" (lookupCell lr "department_id")).length ≤ 1) :
    ∃ counts, employeeCountAgg e d = Except.ok counts ∧
      sumCounts counts = (e.rows.filter (fun lr =>
        decide (resolvedDeptCell d "department_id" "department_name" lr ≠ none))).length ∧
      (∀ p ∈ counts, ∃ rr ∈ d.rows, lookupCell rr "department_name" = some p.1) ∧
      ((∃ lr ∈ e.rows, resolvedDeptCell d "department_id" "department_name" lr = none) →
        sumCounts counts < e.rows.length) := by
  refine ⟨_, employeeCountAgg_ok e d hek hdk hdn hdnE hEc hDc hshared, ?_, ?_, ?_⟩
  · rw [sumCounts_sortByCountDesc, sumCounts_tally,
      count_resolved_general d "department_id" "department_name" e.rows hone]
  · intro p hp
    have h1 := (mem_sortByCountDesc p _).mp hp
    have h2 := List.mem_map_of_mem Prod.fst h1
    rw [names_tally] at h2
    have h3 := (mem_newFirsts p.1 _ [] h2).2
    obtain ⟨c, hc, hcid⟩ := List.mem_filterMap.mp h3
    have hc' : c = some p.1 := hcid
    subst hc'
    obtain ⟨lr, hlr, hcF⟩ := List.mem_flatMap.mp hc
    cases hms : matchingRows d "department_id" (lookupCell lr "department_id") with
    | nil =>
      rw [hms] at hcF
      simp at hcF
    | cons rr ms' =>
      rw [hms] at hcF
      obtain ⟨rr', hrr', hlook⟩ := List.mem_map.mp hcF
      exact ⟨rr', matchingRows_subset d "department_id" _ rr' (hms ▸ hrr'), hlook⟩
  · rintro ⟨lr, hlr, hres⟩
    rw [sumCounts_sortByCountDesc, sumCounts_tally,
      count_resolved_general d "department_id" "department_name" e.rows hone]
    exact filter_length_lt e.rows _ lr hlr (by simp [hres])

/-- Witness for C10: with employee 2 referencing the nonexistent
department 99, the aggregation totals only the resolving rows, lists only
real department names, and falls strictly below the two employee rows. -/
theorem bar_chart_drops_unmatched_witness :
    ∃ counts, employeeCountAgg employeesEx2 departmentsN = Except.ok counts ∧
      sumCounts counts = (employeesEx2.rows.filter (fun lr =>
        decide (resolvedDeptCell departmentsN "department_id" "department_name" lr
          ≠ none))).length ∧
      (∀ p ∈ counts, ∃ rr ∈ departmentsN.rows,
        lookupCell rr "department_name" = some p.1) ∧
      ((∃ lr ∈ employeesEx2.rows,
          resolvedDeptCell departmentsN "department_id" "department_name" lr = none) →
        sumCounts counts < employeesEx2.rows.length) :=
  bar_chart_drops_unmatched employeesEx2 departmentsN (by decide) (by decide) (by decide)
    (by decide) (by decide) (by decide) (by decide) (by decide)

/-- Binding a successful Except computation runs the continuation. -/
theorem except_bind_ok {α β : Type} (a : α) (f : α → Except PErr β) :
    (Except.ok a >>= f) = f a := rfl

/-- Binding a failed Except computation short-circuits. -/
theorem except_bind_error {α β : Type} (er : PErr) (f : α → Except PErr β) :
    ((Except.error er : Except PErr α) >>= f) = Except.error er := rfl

/-- No string suffixed with _x reads department_name (the last characters
differ). -/
theorem append_x_ne_dn (a : String) : a ++ "_x" ≠ "department_name" := by
  intro h
  have h2 : a.data ++ ("_x" : String).data = ("department_name" : String).data := by
    rw [← String.data_append, h]
  have e1 : ("_x" : String).data = ['_', 'x'] := rfl
  have e2 : ("department_name" : String).data =
      ['d','e','p','a','r','t','m','e','n','t','_','n','a','m','e'] := rfl
  rw [e1, e2] at h2
  have h3 := congrArg List.reverse h2
  rw [List.reverse_append] at h3
  have e3 : (['_', 'x'] : List Char).reverse = ['x', '_'] := rfl
  have e4 : (['d','e','p','a','r','t','m','e','n','t','_','n','a','m','e'] :
      List Char).reverse = ['e','m','a','n','_','t','n','e','m','t','r','a','p','e','d'] := rfl
  rw [e3, e4] at h3
  rw [List.cons_append, List.cons_append, List.nil_append] at h3
  injection h3 with h4 h5
  exact absurd h4 (by decide)

/-- No string suffixed with _y reads department_name. -/
theorem append_y_ne_dn (a : String) : a ++ "_y" ≠ "department_name" := by
  intro h
  have h2 : a.data ++ ("_y" : String).data = ("department_name" : String).data := by
    rw [← String.data_append, h]
  have e1 : ("_y" : String).data = ['_', 'y'] := rfl
  have e2 : ("department_name" : String).data =
      ['d','e','p','a','r','t','m','e','n','t','_','n','a','m','e'] := rfl
  rw [e1, e2] at h2
  have h3 := congrArg List.reverse h2
  rw [List.reverse_append] at h3
  have e3 : (['_', 'y'] : List Char).reverse = ['y', '_'] := rfl
  have e4 : (['d','e','p','a','r','t','m','e','n','t','_','n','a','m','e'] :
      List Char).reverse = ['e','m','a','n','_','t','n','e','m','t','r','a','p','e','d'] := rfl
  rw [e3, e4] at h3
  rw [List.cons_append, List.cons_append, List.nil_append] at h3
  injection h3 with h4 h5
  exact absurd h4 (by decide)

/-- When neither frame has a department_name column the merged frame has
none either: suffixing cannot manufacture the name. -/
theorem not_mem_dn_mergeCols (left right : List String) (k : String)
    (hL : "department_name" ∉ left) (hR : "department_name" ∉ right) :
    "department_name" ∉ mergeCols left right k := by
  intro h
  unfold mergeCols at h
  rcases List.mem_append.mp h with h1 | h1
  · obtain ⟨c, hc, hcs⟩ := List.mem_map.mp h1
    unfold suffixName at hcs
    by_cases hcond : c ≠ k ∧ c ∈ right
    · rw [if_pos hcond] at hcs
      exact append_x_ne_dn c hcs
    · rw [if_neg hcond] at hcs
      exact hL (hcs ▸ hc)
  · obtain ⟨c, hc, hcs⟩ := List.mem_map.mp h1
    have hcr : c ∈ right := (List.mem_filter.mp hc).1
    unfold suffixName at hcs
    by_cases hcond : c ≠ k ∧ c ∈ left
    · rw [if_pos hcond] at hcs
      exact append_y_ne_dn c hcs
    · rw [if_neg hcond] at hcs
      exact hR (hcs ▸ hcr)

/-- The employees normalization never loses the department_id column. -/
theorem dep_id_mem_normE (e : DataFrame) (h : "department_id" ∈ e.cols) :
    "department_id" ∈ (normalizeEmployees e).cols := by
  unfold normalizeEmployees
  by_cases hc : "id" ∈ e.cols ∧ "employee_id" ∉ e.cols
  · rw [if_pos hc]
    unfold renameCol
    refine List.mem_map.mpr ⟨"department_id", h, ?_⟩
    rw [if_neg (by decide)]
  · rw [if_neg hc]
    exact h

/-- A departments table carrying id or department_id has department_id
after normalization. -/
theorem dep_id_mem_normD (d : DataFrame) (h : "id" ∈ d.cols ∨ "department_id" ∈ d.cols) :
    "department_id" ∈ (normalizeDepartments d).cols := by
  unfold normalizeDepartments
  by_cases hc : "id" ∈ d.cols ∧ "department_id" ∉ d.cols
  · rw [if_pos hc]
    unfold renameCol
    exact List.mem_map.mpr ⟨"id", hc.1, by rw [if_pos rfl]⟩
  · rw [if_neg hc]
    rcases h with h1 | h1
    · by_cases h2 : "department_id" ∈ d.cols
      · exact h2
      · exact absurd ⟨h1, h2⟩ hc
    · exact h1

/-- The departments normalization cannot create a department_name column. -/
theorem dn_not_mem_normD (d : DataFrame) (h : "department_name" ∉ d.cols) :
    "department_name" ∉ (normalizeDepartments d).cols := by
  unfold normalizeDepartments
  by_cases hc : "id" ∈ d.cols ∧ "department_id" ∉ d.cols
  · rw [if_pos hc]
    unfold renameCol
    intro hmem
    obtain ⟨c, hcm, hcs⟩ := List.mem_map.mp hmem
    by_cases h2 : c = "id"
    · rw [if_pos h2] at hcs
      exact absurd hcs (by decide)
    · rw [if_neg h2] at hcs
      exact h (hcs ▸ hcm)
  · rw [if_neg hc]
    exact h

/-- The employees normalization cannot create a department_name column. -/
theorem dn_not_mem_normE (e : DataFrame) (h : "department_name" ∉ e.cols) :
    "department_name" ∉ (normalizeEmployees e).cols := by
  unfold normalizeEmployees
  by_cases hc : "id" ∈ e.cols ∧ "employee_id" ∉ e.cols
  · rw [if_pos hc]
    unfold renameCol
    intro hmem
    obtain ⟨c, hcm, hcs⟩ := List.mem_map.mp hmem
    by_cases h2 : c = "id"
    · rw [if_pos h2] at hcs
      exact absurd hcs (by decide)
    · rw [if_neg h2] at hcs
      exact h (hcs ▸ hcm)
  · rw [if_neg hc]
    exact h

/-- The try-block pipeline once the three tables are fetched. -/
theorem transformResult_eq_fetch_ok (env : Env) (e d p : DataFrame)
    (hf : env.fetched = Except.ok (e, d, p)) :
    transformResult env = (do
      let empDept ← mergeLeft (normalizeEmployees e) (normalizeDepartments d) "department_id"
      let deptCounts ← checkAndCountDept empDept
      let _ ← (if env.save1Fails then Except.error (PErr.renderError "savefig employees_per_department.png") else Except.ok ())
      let full ← mergeLeft p empDept "employee_id"
      let filled ← fillna full "department_name" (Val.vStr "Unknown")
      let projCounts := valueCountsCol filled "department_name"
      let _ ← (if env.save2Fails then Except.error (PErr.renderError "savefig projects_by_department.png") else Except.ok ())
      Except.ok (deptCounts, projCounts)) := by
  unfold transformResult
  rw [hf]
  rfl

/-- C5: given a departments table with no column mappable to
department_name (and tables otherwise joinable: departments has an
identifier column, employees has its department reference and no
department_name column of its own), the transform stage fails with the
explicitly raised schema-shape error and its expected-column-absent
message, not with a raw join exception. -/
theorem missing_name_column_schema_error (env : Env) (e d p : DataFrame)
    (hf : env.fetched = Except.ok (e, d, p))
    (hdnD : "department_name" ∉ d.cols)
    (hdnE : "department_name" ∉ e.cols)
    (hkey : "id" ∈ d.cols ∨ "department_id" ∈ d.cols)
    (hek : "department_id" ∈ e.cols) :
    transformResult env = Except.error (PErr.schemaShape
      "Column department_name not found. Please check your departments table.") := by
  rw [transformResult_eq_fetch_ok env e d p hf]
  have hm : mergeLeft (normalizeEmployees e) (normalizeDepartments d) "department_id" =
      Except.ok (DataFrame.mk
        (mergeCols (normalizeEmployees e).cols (normalizeDepartments d).cols "department_id")
        (mergeRows (normalizeEmployees e) (normalizeDepartments d) "department_id")) := by
    unfold mergeLeft
    rw [if_pos ⟨dep_id_mem_normE e hek, dep_id_mem_normD d hkey⟩]
  rw [hm, except_bind_ok]
  have hcheck : checkAndCountDept (DataFrame.mk
      (mergeCols (normalizeEmployees e).cols (normalizeDepartments d).cols "department_id")
      (mergeRows (normalizeEmployees e) (normalizeDepartments d) "department_id")) =
      Except.error (PErr.schemaShape
        "Column department_name not found. Please check your departments table.") := by
    unfold checkAndCountDept
    rw [if_neg (not_mem_dn_mergeCols _ _ _ (dn_not_mem_normE e hdnE) (dn_not_mem_normD d hdnD))]
  rw [hcheck, except_bind_error]

/-- Witness for C5: a departments table with only id and location columns
makes the pipeline fail with the schema-shape error. -/
theorem missing_name_column_schema_error_witness :
    transformResult envNoNameEx = Except.error (PErr.schemaShape
      "Column department_name not found. Please check your departments table.") :=
  missing_name_column_schema_error envNoNameEx employeesEx departmentsNoName projectsEx
    rfl (by decide) (by decide) (by decide) (by decide)

/-- The join image of an unmatched left row. -/
theorem mergeOne_of_no_match (right : DataFrame) (leftCols : List String) (k : String)
    (lr : Row) (hms : matchingRows right k (lookupCell lr k) = []) :
    mergeOne right leftCols k lr =
      [suffixRow right.cols k "_x" lr ++ padRight right leftCols k] := by
  unfold mergeOne
  rw [hms]

/-- The join image of a matched left row. -/
theorem mergeOne_of_match (right : DataFrame) (leftCols : List String) (k : String)
    (lr : Row) (ms : List Row) (rr : Row)
    (hms : matchingRows right k (lookupCell lr k) = rr :: ms) :
    mergeOne right leftCols k lr = (rr :: ms).map (fun r =>
      suffixRow right.cols k "_x" lr ++ suffixRow leftCols k "_y"
        (r.filter (fun p => decide (p.1 ≠ k)))) := by
  unfold mergeOne
  rw [hms]

/-- Filling a column that the row carries always yields a value: the
original one, or the fill value where the cell was NaN. -/
theorem lookupCell_fillRow (r : Row) (c : String) (v : Val) (h : ∃ q ∈ r, q.1 = c) :
    lookupCell (fillRow c v r) c = some ((lookupCell r c).getD v) := by
  induction r with
  | nil =>
    obtain ⟨q, hq, _⟩ := h
    simp at hq
  | cons q qs ih =>
    unfold fillRow at *
    rw [List.map_cons]
    by_cases hqc : q.1 = c
    · by_cases hqn : q.2 = none
      · rw [if_pos ⟨hqc, hqn⟩, lookupCell_cons, if_pos hqc, lookupCell_cons, if_pos hqc, hqn]
        rfl
      · rw [if_neg (fun hand => hqn hand.2), lookupCell_cons, if_pos hqc,
          lookupCell_cons, if_pos hqc]
        cases hq2 : q.2 with
        | none => exact absurd hq2 hqn
        | some w => rfl
    · rw [if_neg (fun hand => hqc hand.1), lookupCell_cons, if_neg hqc,
        lookupCell_cons, if_neg hqc]
      apply ih
      obtain ⟨q', hq', hq'c⟩ := h
      rcases List.mem_cons.mp hq' with rfl | hmem
      · exact absurd hq'c hqc
      · exact ⟨q', hmem, hq'c⟩

/-- Collapsing a list of definite cells. -/
theorem filterMap_id_map_some {α β : Type} (l : List α) (f : α → Option β) :
    ((l.map f).filterMap id) = l.filterMap f := by
  induction l with
  | nil => rfl
  | cons a rest ih => simp [List.filterMap_cons, ih]

/-- The department-name column of the project join after the Unknown fill,
row by row: the resolved department name, with Unknown where the row does
not resolve; holds when every left row matches at most one view row. -/
theorem projCells_eq (ed : DataFrame) (pcols : List String) (k dn : String) (rs : List Row)
    (hdnk : dn ≠ k) (hdnP : dn ∉ pcols) (hEc : RowsConform ed)
    (hshared : ∀ c ∈ pcols, c ∈ ed.cols → c = k)
    (hdnV : dn ∈ ed.cols) (hHas : ∀ r ∈ ed.rows, ∃ q ∈ r, q.1 = dn)
    (hrs : ∀ lr ∈ rs, (∀ q ∈ lr, q.1 ∈ pcols) ∧
      (matchingRows ed k (lookupCell lr k)).length ≤ 1) :
    ((rs.flatMap (mergeOne ed pcols k)).map (fillRow dn (Val.vStr "Unknown"))).map
        (fun r => lookupCell r dn) =
      rs.map (fun lr =>
        some ((resolvedDeptCell ed k dn lr).getD (Val.vStr "Unknown"))) := by
  have hdnpad : (dn, (none : Cell)) ∈ padRight ed pcols k := by
    unfold padRight
    refine List.mem_map.mpr ⟨dn, ?_, rfl⟩
    refine List.mem_map.mpr ⟨dn, List.mem_filter.mpr ⟨hdnV, by simp [hdnk]⟩, ?_⟩
    unfold suffixName
    rw [if_neg (fun hand => hdnP hand.2)]
  induction rs with
  | nil => rfl
  | cons lr rest ih =>
    obtain ⟨hconf, hone1⟩ := hrs lr (List.mem_cons_self lr rest)
    have hlrne : ∀ q ∈ lr, q.1 ≠ dn := fun q hq hc => hdnP (hc ▸ hconf q hq)
    have hsuffL : suffixRow ed.cols k "_x" lr = lr :=
      suffixRow_eq_self _ _ _ _ (fun q hq hand => hand.1 (hshared q.1 (hconf q hq) hand.2))
    rw [List.flatMap_cons, List.map_append, List.map_append]
    cases hms : matchingRows ed k (lookupCell lr k) with
    | nil =>
      have hres : resolvedDeptCell ed k dn lr = none := by
        unfold resolvedDeptCell
        rw [hms]
      rw [mergeOne_of_no_match ed pcols k lr hms, hsuffL]
      simp only [List.map_cons, List.map_nil]
      rw [lookupCell_fillRow _ _ _ ⟨(dn, none), List.mem_append.mpr (Or.inr hdnpad), rfl⟩,
        lookupCell_append_of_ne _ _ _ hlrne, lookupCell_padRight, hres,
        List.singleton_append,
        ih (fun x hx => hrs x (List.mem_cons_of_mem lr hx))]
    | cons rr ms' =>
      rw [hms, List.length_cons] at hone1
      have hms0 : ms' = [] := List.length_eq_zero.mp (by omega)
      subst hms0
      have hrrmem : rr ∈ ed.rows :=
        matchingRows_subset ed k _ rr (hms ▸ List.mem_cons_self rr [])
      have hrrconf : ∀ q ∈ rr, q.1 ∈ ed.cols := hEc rr hrrmem
      have hres : resolvedDeptCell ed k dn lr = lookupCell rr dn := by
        unfold resolvedDeptCell
        rw [hms]
      obtain ⟨q0, hq0, hq0dn⟩ := hHas rr hrrmem
      rw [mergeOne_of_match ed pcols k lr [] rr hms, hsuffL]
      simp only [List.map_cons, List.map_nil]
      rw [suffixRow_eq_self pcols k "_y" (rr.filter (fun q => decide (q.1 ≠ k)))
        (fun q hq hand =>
          hand.1 (hshared q.1 hand.2 (hrrconf q (List.mem_filter.mp hq).1)))]
      rw [lookupCell_fillRow _ _ _ ⟨q0, List.mem_append.mpr (Or.inr (List.mem_filter.mpr
          ⟨hq0, by rw [hq0dn]; simp [hdnk]⟩)), hq0dn⟩,
        lookupCell_append_of_ne _ _ _ hlrne, lookupCell_filter_ne rr k dn hdnk, hres,
        List.singleton_append,
        ih (fun x hx => hrs x (List.mem_cons_of_mem lr hx))]

/-- The project-count aggregation computed on well-shaped tables: the
second merge succeeds, the fill succeeds, and the result is the sorted
tally of one value per project row - its resolved department name, or
Unknown. -/
theorem projectCountAgg_ok (p ed : DataFrame)
    (hpk : "employee_id" ∈ p.cols) (hek2 : "employee_id" ∈ ed.cols)
    (hdn : "department_name" ∈ ed.cols) (hdnP : "department_name" ∉ p.cols)
    (hPc : RowsConform p) (hEc : RowsConform ed)
    (hshared : NoSharedCols p ed "employee_id")
    (hHas : HasColPair ed "department_name")
    (hone : ∀ lr ∈ p.rows,
      (matchingRows ed "employee_id" (lookupCell lr "employee_id")).length ≤ 1) :
    projectCountAgg p ed = Except.ok (sortByCountDesc (tally (p.rows.map (fun lr =>
      (resolvedDeptCell ed "employee_id" "department_name" lr).getD
        (Val.vStr "Unknown"))))) := by
  unfold projectCountAgg
  have hm : mergeLeft p ed "employee_id" = Except.ok (DataFrame.mk
      (mergeCols p.cols ed.cols "employee_id") (mergeRows p ed "employee_id")) := by
    unfold mergeLeft
    rw [if_pos ⟨hpk, hek2⟩]
  rw [hm, except_bind_ok]
  have hfill : fillna (DataFrame.mk (mergeCols p.cols ed.cols "employee_id")
      (mergeRows p ed "employee_id")) "department_name" (Val.vStr "Unknown") =
      Except.ok (DataFrame.mk (mergeCols p.cols ed.cols "employee_id")
        ((mergeRows p ed "employee_id").map
          (fillRow "department_name" (Val.vStr "Unknown")))) := by
    unfold fillna
    rw [if_pos (mem_mergeCols_of_right p.cols ed.cols "employee_id" "department_name"
      hdn (by decide) hdnP)]
  rw [hfill, except_bind_ok]
  unfold valueCountsCol colCells
  have hrows : (DataFrame.mk (mergeCols p.cols ed.cols "employee_id")
      ((mergeRows p ed "employee_id").map
        (fillRow "department_name" (Val.vStr "Unknown")))).rows
      = (mergeRows p ed "employee_id").map
        (fillRow "department_name" (Val.vStr "Unknown")) := rfl
  rw [hrows]
  unfold mergeRows
  rw [projCells_eq ed p.cols "employee_id" "department_name" p.rows (by decide) hdnP hEc
    hshared hdn hHas (fun lr hlr => ⟨hPc lr hlr, hone lr hlr⟩)]
  rw [filterMap_id_map_some]
  rw [show (p.rows.filterMap (fun lr =>
      some ((resolvedDeptCell ed "employee_id" "department_name" lr).getD
        (Val.vStr "Unknown"))))
    = p.rows.map (fun lr =>
      (resolvedDeptCell ed "employee_id" "department_name" lr).getD (Val.vStr "Unknown"))
    from List.filterMap_eq_map _ ▸ rfl]

/-- Counting Unknown among the per-row resolved names counts exactly the
unresolvable rows, provided no actual department is named Unknown. -/
theorem countOcc_unknown (ed : DataFrame) (k dn : String) (rs : List Row)
    (hnoUnk : ∀ rr ∈ ed.rows, lookupCell rr dn ≠ some (Val.vStr "Unknown")) :
    countOcc (Val.vStr "Unknown") (rs.map (fun lr =>
      (resolvedDeptCell ed k dn lr).getD (Val.vStr "Unknown"))) =
      (rs.filter (fun lr => decide (resolvedDeptCell ed k dn lr = none))).length := by
  induction rs with
  | nil => rfl
  | cons lr rest ih =>
    rw [List.map_cons, List.filter_cons]
    cases hr : resolvedDeptCell ed k dn lr with
    | none =>
      simp [countOcc, hr, ih]
      omega
    | some w =>
      have hw : w ≠ Val.vStr "Unknown" := by
        unfold resolvedDeptCell at hr
        cases hms : matchingRows ed k (lookupCell lr k) with
        | nil =>
          rw [hms] at hr
          simp at hr
        | cons rr ms' =>
          rw [hms] at hr
          cases ms' with
          | nil =>
            simp only [] at hr
            intro hc
            exact hnoUnk rr
              (matchingRows_subset ed k _ rr (hms ▸ List.mem_cons_self rr [])) (hc ▸ hr)
          | cons r2 ms'' => simp at hr
      simp [countOcc, hr, hw, ih]

/-- C2: for a well-shaped project-assignment table joined against the
employee-department view (employee_id a key of both, at most one view row
per employee, the view carrying a department_name pair in every row and
never the literal name Unknown), the project-count aggregation totals
exactly the number of project rows, and its Unknown bucket counts exactly
the rows that resolve to no department name. -/
theorem project_counts_total (p ed : DataFrame)
    (hpk : "employee_id" ∈ p.cols) (hek2 : "employee_id" ∈ ed.cols)
    (hdn : "department_name" ∈ ed.cols) (hdnP : "department_name" ∉ p.cols)
    (hPc : RowsConform p) (hEc : RowsConform ed)
    (hshared : NoSharedCols p ed "employee_id")
    (hHas : HasColPair ed "department_name")
    (hone : ∀ lr ∈ p.rows,
      (matchingRows ed "employee_id" (lookupCell lr "employee_id")).length ≤ 1)
    (hnoUnk : ∀ rr ∈ ed.rows, lookupCell rr "department_name" ≠ some (Val.vStr "Unknown")) :
    ∃ counts, projectCountAgg p ed = Except.ok counts ∧
      sumCounts counts = p.rows.length ∧
      getCount (Val.vStr "Unknown") counts = (p.rows.filter (fun lr =>
        decide (resolvedDeptCell ed "employee_id" "department_name" lr = none))).length := by
  refine ⟨_, projectCountAgg_ok p ed hpk hek2 hdn hdnP hPc hEc hshared hHas hone, ?_, ?_⟩
  · rw [sumCounts_sortByCountDesc, sumCounts_tally, List.length_map]
  · rw [getCount_sortByCountDesc, getCount_tally,
      countOcc_unknown ed "employee_id" "department_name" p.rows hnoUnk]

/-- Witness for C2 on the scenario: three project rows, total 3, with the
row of the nonexistent employee 99 counted under Unknown. -/
theorem project_counts_total_witness :
    ∃ counts, projectCountAgg projectsEx empDeptEx = Except.ok counts ∧
      sumCounts counts = projectsEx.rows.length ∧
      getCount (Val.vStr "Unknown") counts = (projectsEx.rows.filter (fun lr =>
        decide (resolvedDeptCell empDeptEx "employee_id" "department_name" lr
          = none))).length :=
  project_counts_total projectsEx empDeptEx (by decide) (by decide) (by decide) (by decide)
    (by decide) (by decide) (by decide) (by decide) (by decide) (by decide)

end EDADashboard
